import Mathlib

/-!
Shallow embedding of `src/can.py`: a generational genetic algorithm that
minimises the surface area of a fixed-volume cylinder over its radius.

Real arithmetic of the script is modelled exactly over ℚ for the genetic
machinery (selection, crossover, mutation, the generational loop) and over ℝ
for the cylinder geometry, which involves π.  The script's ambient random
source (`random.random()`, `random.uniform`, `random.gauss`) is modelled by
explicit streams of values passed to each operation: one stream per call
site, indexed by the iteration that consumes the value.  The fitness
evaluator is passed to the loop explicitly (the spec treats it as an injected
external capability); the script wires in `evalueaza_fitness`, defined over ℝ
below.  Statements that concern a failure of the script (a raised Python
exception) use an explicit error type and `Except`, mirroring where the
script's arithmetic raises.
-/

/-- `VOLUM_FIX = 1000.0`, the fixed volume of the cylindrical can. -/
def VOLUM_FIX : ℝ := 1000

/-- `RAZA_MIN = 0.1`, the least admissible radius. -/
def RAZA_MIN : ℚ := 1/10

/-- `RAZA_MAX = 10.0`, the greatest admissible radius. -/
def RAZA_MAX : ℚ := 10

/-- `DIMENSIUNE_POPULATIE = 50`, the number of individuals in a population. -/
def DIMENSIUNE_POPULATIE : Nat := 50

/-- `NUMAR_GENERATII = 100`, the number of generations. -/
def NUMAR_GENERATII : Nat := 100

/-- `RATA_MUTATIE = 0.1`, the probability of mutation. -/
def RATA_MUTATIE : ℚ := 1/10

/-- `RATA_CROSSOVER = 0.8`, the probability of crossover. -/
def RATA_CROSSOVER : ℚ := 8/10

/-- `calculeaza_inaltimea`: the height of the cylinder of volume `VOLUM_FIX`
with radius `raza`, `VOLUM_FIX / (math.pi * raza ** 2)`. -/
noncomputable def calculeaza_inaltimea (raza : ℝ) : ℝ :=
  VOLUM_FIX / (Real.pi * raza ^ 2)

/-- `calculeaza_aria`: lateral area plus the two caps. -/
noncomputable def calculeaza_aria (raza : ℝ) : ℝ :=
  let inaltime := calculeaza_inaltimea raza
  let aria_laterala := 2 * Real.pi * raza * inaltime
  let aria_capace := 2 * Real.pi * raza ^ 2
  aria_laterala + aria_capace

/-- `evalueaza_fitness`: the reciprocal of the surface area (larger fitness
corresponds to a smaller area). -/
noncomputable def evalueaza_fitness (raza : ℝ) : ℝ :=
  1 / calculeaza_aria raza

/-- `initializare_populatie` with the population size as a parameter:
`[random.uniform(RAZA_MIN, RAZA_MAX) for _ in range(dimensiune)]`; the `i`-th
call of `random.uniform(a, b)` is modelled as `a + (b - a) * uniforme i` with
`uniforme i ∈ [0, 1]`. -/
def initializare_populatie_dim (dimensiune : Nat) (uniforme : Nat → ℚ) : List ℚ :=
  (List.range dimensiune).map fun i => RAZA_MIN + (RAZA_MAX - RAZA_MIN) * uniforme i

/-- `initializare_populatie` of the script, at the script's constant size. -/
def initializare_populatie (uniforme : Nat → ℚ) : List ℚ :=
  initializare_populatie_dim DIMENSIUNE_POPULATIE uniforme

/-- The inner loop of `efectueaza_selectia` for one draw `alegere`: walk the
`zip(populatie, probabilitati_selectie)` pairs accumulating
`prob_cumulativa`, and return the first individual with
`alegere <= prob_cumulativa`; `none` when the loop finishes without a hit
(the script then appends nothing for this draw). -/
def scaneaza (alegere : ℚ) : ℚ → List (ℚ × ℚ) → Option ℚ
  | _, [] => none
  | prob_cumulativa, (individ, p) :: rest =>
    if alegere ≤ prob_cumulativa + p then some individ
    else scaneaza alegere (prob_cumulativa + p) rest

/-- `efectueaza_selectia`: roulette-wheel selection.  The draw of iteration
`j` of `for _ in range(DIMENSIUNE_POPULATIE)` is `alegeri j`. -/
def efectueaza_selectia (populatie valori_fitness : List ℚ) (alegeri : Nat → ℚ) : List ℚ :=
  let fitness_total := valori_fitness.sum
  let probabilitati_selectie := valori_fitness.map fun f => f / fitness_total
  (List.range DIMENSIUNE_POPULATIE).filterMap fun j =>
    scaneaza (alegeri j) 0 (populatie.zip probabilitati_selectie)

/-- The Python exceptions the script can raise, plus the two error values the
spec prescribes (which the script never produces). -/
inductive Eroare where
  | zeroDivision
  | valueErrorMaxEmpty
  | degenerateFitness
  | invalidConfiguration
deriving DecidableEq, Repr

/-- `efectueaza_selectia` with its failure made explicit: when
`fitness_total` is `0` and `valori_fitness` is nonempty, the comprehension
`[f / fitness_total for f in valori_fitness]` performs a division by zero and
Python raises `ZeroDivisionError`. -/
def efectueaza_selectiaE (populatie valori_fitness : List ℚ) (alegeri : Nat → ℚ) :
    Except Eroare (List ℚ) :=
  if valori_fitness ≠ [] ∧ valori_fitness.sum = 0 then Except.error Eroare.zeroDivision
  else Except.ok (efectueaza_selectia populatie valori_fitness alegeri)

/-- `efectueaza_crossover`: arithmetic blending with weight `alfa` (the
script's `random.random()` draw, passed explicitly), clamped to the bounds. -/
def efectueaza_crossover (parinte1 parinte2 alfa : ℚ) : ℚ :=
  let raza_copil := alfa * parinte1 + (1 - alfa) * parinte2
  max RAZA_MIN (min RAZA_MAX raza_copil)

/-- `efectueaza_mutatia`: Gaussian perturbation clamped to the bounds; the
sample of `random.gauss(0, 0.1)` is passed explicitly as `zgomot`. -/
def efectueaza_mutatia (raza zgomot : ℚ) : ℚ :=
  let raza_mutata := raza + zgomot
  max RAZA_MIN (min RAZA_MAX raza_mutata)

/-- The random values one generation of `algoritm_genetic` consumes, one
stream per call site: `alegeri j` is the selection draw of iteration `j`;
`decizie_crossover k`, `alfa1 k`, `alfa2 k` are the crossover decision and the
two blending weights of pair `k`; `decizie_mutatie i` and `zgomot i` are the
mutation decision and the Gaussian sample for offspring `i`. -/
structure Aleator where
  alegeri : Nat → ℚ
  decizie_crossover : Nat → ℚ
  alfa1 : Nat → ℚ
  alfa2 : Nat → ℚ
  decizie_mutatie : Nat → ℚ
  zgomot : Nat → ℚ

/-- One iteration of the crossover loop: pair `k` reads parents at positions
`i = 2 * k` and `(i + 1) % DIMENSIUNE_POPULATIE` of the mating pool and
produces that pair's two children. -/
def pereche_urmasi (indivizi_selectati : List ℚ) (r : Aleator) (k : Nat) : List ℚ :=
  let i := 2 * k
  let parinte1 := indivizi_selectati.getD i 0
  let parinte2 := indivizi_selectati.getD ((i + 1) % DIMENSIUNE_POPULATIE) 0
  if r.decizie_crossover k < RATA_CROSSOVER then
    [efectueaza_crossover parinte1 parinte2 (r.alfa1 k),
     efectueaza_crossover parinte2 parinte1 (r.alfa2 k)]
  else [parinte1, parinte2]

/-- The crossover phase: `for i in range(0, DIMENSIUNE_POPULATIE, 2)` visits
the pairs `k = 0, …, DIMENSIUNE_POPULATIE / 2 - 1` with `i = 2 * k` and
extends `urmasi` by each pair's two children. -/
def pas_crossover (indivizi_selectati : List ℚ) (r : Aleator) : List ℚ :=
  (List.range (DIMENSIUNE_POPULATIE / 2)).flatMap (pereche_urmasi indivizi_selectati r)

/-- The mutation phase, with the mutation probability as a parameter (the
script reads the constant `RATA_MUTATIE`): `for i in range(len(urmasi))`
replaces `urmasi[i]` when `random.random() < rata_mutatie` and counts the
replacements in `numar_mutatii`. -/
def pas_mutatie (rata_mutatie : ℚ) (urmasi : List ℚ) (r : Aleator) : List ℚ × Nat :=
  ((List.range urmasi.length).map fun i =>
      if r.decizie_mutatie i < rata_mutatie then efectueaza_mutatia (urmasi.getD i 0) (r.zgomot i)
      else urmasi.getD i 0,
   (List.range urmasi.length).countP fun i => decide (r.decizie_mutatie i < rata_mutatie))

/-- One iteration of the generational loop of `algoritm_genetic`: evaluate
the fitness of the current population, select, cross over, mutate; returns
the next population and `numar_mutatii`. -/
def pas_generatie (rata_mutatie : ℚ) (fitness : ℚ → ℚ) (populatie : List ℚ) (r : Aleator) :
    List ℚ × Nat :=
  let valori_fitness := populatie.map fitness
  let indivizi_selectati := efectueaza_selectia populatie valori_fitness r.alegeri
  let urmasi := pas_crossover indivizi_selectati r
  pas_mutatie rata_mutatie urmasi r

/-- One iteration of the generational loop with its failures made explicit:
`max(valori_fitness)` raises `ValueError` on an empty list, and selection
raises `ZeroDivisionError` when the fitness total is zero (the script has no
validation and no error type of its own). -/
def pas_generatieE (rata_mutatie : ℚ) (fitness : ℚ → ℚ) (populatie : List ℚ) (r : Aleator) :
    Except Eroare (List ℚ × Nat) :=
  let valori_fitness := populatie.map fitness
  if valori_fitness = [] then Except.error Eroare.valueErrorMaxEmpty
  else if valori_fitness.sum = 0 then Except.error Eroare.zeroDivision
  else Except.ok (pas_generatie rata_mutatie fitness populatie r)

/-- The population after `g` iterations of the loop; `randuri g` is the
randomness generation `g` consumes. -/
def populatia_dupa (rata_mutatie : ℚ) (fitness : ℚ → ℚ) (populatie0 : List ℚ)
    (randuri : Nat → Aleator) : Nat → List ℚ
  | 0 => populatie0
  | g + 1 =>
    (pas_generatie rata_mutatie fitness
      (populatia_dupa rata_mutatie fitness populatie0 randuri g) (randuri g)).1

/-- The record the progress line of the script prints for a generation. -/
structure Rezumat where
  generatie : Nat
  fitness_maxim : ℚ
  fitness_mediu : ℚ
  numar_mutatii : Nat
deriving DecidableEq, Repr

/-- Python's `max` on a list; the populations of every statement below are
nonempty, where `max` does not raise (`pas_generatieE` models the raise). -/
def maxim (l : List ℚ) : ℚ :=
  (l.max?).getD 0

/-- The summary the script would print for generation `g`: the fitness
statistics of the population entering `g` and the mutation count of `g`'s
mutation phase. -/
def rezumatul (rata_mutatie : ℚ) (fitness : ℚ → ℚ) (populatie0 : List ℚ)
    (randuri : Nat → Aleator) (g : Nat) : Rezumat :=
  let populatie := populatia_dupa rata_mutatie fitness populatie0 randuri g
  let valori_fitness := populatie.map fitness
  { generatie := g
    fitness_maxim := maxim valori_fitness
    fitness_mediu := valori_fitness.sum / (valori_fitness.length : ℚ)
    numar_mutatii := (pas_generatie rata_mutatie fitness populatie (randuri g)).2 }

/-- The summaries the script actually prints, in loop order: the progress
line runs under `if generatie % 10 == 0 or generatie == NUMAR_GENERATII - 1`. -/
def rezumate_afisate (rata_mutatie : ℚ) (fitness : ℚ → ℚ) (populatie0 : List ℚ)
    (randuri : Nat → Aleator) : List Rezumat :=
  (List.range NUMAR_GENERATII).filterMap fun g =>
    if g % 10 = 0 ∨ g = NUMAR_GENERATII - 1 then
      some (rezumatul rata_mutatie fitness populatie0 randuri g)
    else none

/-- The result extraction of `algoritm_genetic`:
`index_max = valori_fitness.index(max(valori_fitness))` followed by
`populatie[index_max]`. -/
def alege_optimul (populatie valori_fitness : List ℚ) : ℚ :=
  let index_max := List.indexOf (maxim valori_fitness) valori_fitness
  populatie.getD index_max 0

/-- A concrete all-zero randomness bundle, used in concrete evaluations. -/
def aleatorZero : Aleator :=
  ⟨fun _ => 0, fun _ => 0, fun _ => 0, fun _ => 0, fun _ => 0, fun _ => 0⟩

/-! ## Helper lemmas -/

theorem limite_clamp (x : ℚ) :
    RAZA_MIN ≤ max RAZA_MIN (min RAZA_MAX x) ∧ max RAZA_MIN (min RAZA_MAX x) ≤ RAZA_MAX := by
  refine ⟨le_max_left _ _, max_le ?_ (min_le_left _ _)⟩
  norm_num [RAZA_MIN, RAZA_MAX]

theorem suma_map_div (l : List ℚ) (s : ℚ) : (l.map fun f => f / s).sum = l.sum / s := by
  induction l with
  | nil => simp
  | cons a t ih => simp [ih, add_div]

theorem scaneaza_membru (l : List (ℚ × ℚ)) (alegere : ℚ) :
    ∀ (acc x : ℚ), scaneaza alegere acc l = some x → x ∈ l.map Prod.fst := by
  induction l with
  | nil => intro acc x h; simp [scaneaza] at h
  | cons a t ih =>
    intro acc x h
    obtain ⟨i, p⟩ := a
    rw [scaneaza] at h
    by_cases hc : alegere ≤ acc + p
    · simp [hc] at h; simp [h]
    · simp [hc] at h
      exact List.mem_cons_of_mem _ (ih _ _ h)

theorem scaneaza_gaseste (l : List (ℚ × ℚ)) (alegere : ℚ) :
    ∀ acc : ℚ, l ≠ [] → alegere ≤ acc + (l.map Prod.snd).sum →
    ∃ x, scaneaza alegere acc l = some x := by
  induction l with
  | nil => intro acc h; simp at h
  | cons a t ih =>
    intro acc _ hle
    obtain ⟨i, p⟩ := a
    rw [scaneaza]
    by_cases hc : alegere ≤ acc + p
    · exact ⟨i, by simp [hc]⟩
    · have ht : t ≠ [] := by
        rintro rfl
        simp at hle
        exact hc hle
      have : alegere ≤ (acc + p) + (t.map Prod.snd).sum := by
        simp at hle
        linarith [hle]
      obtain ⟨x, hx⟩ := ih (acc + p) ht this
      exact ⟨x, by simp [hc, hx]⟩

theorem lungime_filterMap_toate {α β : Type} (F : α → Option β) (l : List α)
    (h : ∀ j ∈ l, (F j).isSome) : (l.filterMap F).length = l.length := by
  induction l with
  | nil => simp
  | cons a t ih =>
    obtain ⟨x, hx⟩ := Option.isSome_iff_exists.mp (h a (List.mem_cons_self a t))
    rw [List.filterMap_cons, hx]
    simp [ih fun j hj => h j (List.mem_cons_of_mem a hj)]

theorem selectia_fundamental (populatie valori_fitness : List ℚ) (alegeri : Nat → ℚ)
    (hlen : populatie.length = valori_fitness.length)
    (hne : valori_fitness ≠ [])
    (hpos : ∀ f ∈ valori_fitness, 0 < f)
    (hdraw : ∀ j, alegeri j < 1) :
    (efectueaza_selectia populatie valori_fitness alegeri).length = DIMENSIUNE_POPULATIE ∧
    ∀ x ∈ efectueaza_selectia populatie valori_fitness alegeri, x ∈ populatie := by
  have hS : 0 < valori_fitness.sum := List.sum_pos valori_fitness hpos hne
  set S := valori_fitness.sum with hSdef
  set probs := valori_fitness.map fun f => f / S with hprobs
  have hplen : probs.length = populatie.length := by simp [hprobs, hlen]
  have hsnd : (populatie.zip probs).map Prod.snd = probs :=
    List.map_snd_zip _ _ (le_of_eq hplen)
  have hfst : (populatie.zip probs).map Prod.fst = populatie :=
    List.map_fst_zip _ _ (le_of_eq hplen.symm)
  have hsum : ((populatie.zip probs).map Prod.snd).sum = 1 := by
    rw [hsnd, hprobs, suma_map_div, div_self (ne_of_gt hS)]
  have hpne : populatie ≠ [] := by
    intro h
    rw [h] at hlen
    exact hne (List.length_eq_zero.mp hlen.symm)
  have hznil : populatie.zip probs ≠ [] := by
    intro h
    have hl : populatie.length = 0 := by
      simpa [List.length_zip, hplen] using congrArg List.length h
    exact hpne (List.length_eq_zero.mp hl)
  have hsome : ∀ j : Nat, (scaneaza (alegeri j) 0 (populatie.zip probs)).isSome := by
    intro j
    obtain ⟨x, hx⟩ := scaneaza_gaseste (populatie.zip probs) (alegeri j) 0 hznil
      (by rw [hsum, zero_add]; exact le_of_lt (hdraw j))
    simp [hx]
  constructor
  · have := lungime_filterMap_toate
      (fun j => scaneaza (alegeri j) 0 (populatie.zip probs)) (List.range DIMENSIUNE_POPULATIE)
      (fun j _ => hsome j)
    simpa [efectueaza_selectia] using this
  · intro x hx
    simp only [efectueaza_selectia, List.mem_filterMap] at hx
    obtain ⟨j, _, hj⟩ := hx
    have := scaneaza_membru (populatie.zip probs) (alegeri j) 0 x hj
    rwa [hfst] at this

theorem scaneaza_rateaza (l : List (ℚ × ℚ)) (alegere : ℚ) :
    ∀ acc : ℚ, (∀ q ∈ l.map Prod.snd, 0 ≤ q) → acc + (l.map Prod.snd).sum < alegere →
    scaneaza alegere acc l = none := by
  induction l with
  | nil => intro acc _ _; rfl
  | cons a t ih =>
    intro acc hq h
    obtain ⟨i, p⟩ := a
    have hts : 0 ≤ (t.map Prod.snd).sum :=
      List.sum_nonneg fun q hqmem => hq q (List.mem_cons_of_mem _ hqmem)
    simp only [List.map_cons, List.sum_cons] at h
    have hc : ¬ alegere ≤ acc + p := by
      push_neg
      linarith
    rw [scaneaza, if_neg hc]
    exact ih (acc + p) (fun q hqm => hq q (List.mem_cons_of_mem _ hqm)) (by linarith)

/-! ## The claims -/

/-- Claim C1, amended.  For an index-aligned fitness vector of positive
values, every draw that does not exceed the cumulative total (in exact
arithmetic any draw below 1, since the partition sums to exactly 1) selects a
genome, so the mating pool has exactly `DIMENSIUNE_POPULATIE` elements, each
drawn from the input population.  The claim's fall-back clause is refuted by
`selectia_scurta_cex`: the source has no fall-back branch, so a draw that the
cumulative sum falls short of selects nothing at all. -/
theorem selectia_plina_fara_rezerva (populatie valori_fitness : List ℚ) (alegeri : Nat → ℚ)
    (hlen : populatie.length = valori_fitness.length)
    (hne : valori_fitness ≠ [])
    (hpos : ∀ f ∈ valori_fitness, 0 < f)
    (hdraw : ∀ j, alegeri j < 1) :
    (efectueaza_selectia populatie valori_fitness alegeri).length = DIMENSIUNE_POPULATIE ∧
    ∀ x ∈ efectueaza_selectia populatie valori_fitness alegeri, x ∈ populatie :=
  selectia_fundamental populatie valori_fitness alegeri hlen hne hpos hdraw

/-- Witness for `selectia_plina_fara_rezerva` at a concrete input. -/
theorem selectia_plina_fara_rezerva_witness :
    (efectueaza_selectia [5, 7] [1, 1] fun _ => (1 : ℚ)/2).length = DIMENSIUNE_POPULATIE ∧
    ∀ x ∈ efectueaza_selectia [5, 7] [1, 1] fun _ => (1 : ℚ)/2, x ∈ ([5, 7] : List ℚ) :=
  selectia_plina_fara_rezerva [5, 7] [1, 1] (fun _ => (1 : ℚ)/2) rfl (by simp) (by norm_num)
    fun j => by norm_num

/-- Counterexample to claim C1 as stated.  Population `[5]` with the positive
fitness vector `[1]`: when every drawn value exceeds the cumulative sum of
the final partition (the situation the claim ascribes to floating-point
rounding, here realised exactly by the draw `3/2` against the cumulative
total `1`), no draw yields a selection and nothing falls back to the last
genome: the selector returns the empty pool, not a pool of
`DIMENSIUNE_POPULATIE` copies of the last genome. -/
theorem selectia_scurta_cex :
    efectueaza_selectia [5] [1] (fun _ => (3 : ℚ)/2) = [] ∧
    (efectueaza_selectia [5] [1] (fun _ => (3 : ℚ)/2)).length ≠ DIMENSIUNE_POPULATIE := by
  have hs : scaneaza ((3:ℚ)/2) 0 [((5:ℚ), (1:ℚ))] = none := by
    rw [scaneaza]
    norm_num [scaneaza]
  have h : efectueaza_selectia [5] [1] (fun _ => (3 : ℚ)/2) = [] := by
    simp [efectueaza_selectia, hs]
  refine ⟨h, ?_⟩
  rw [h]
  simp [DIMENSIUNE_POPULATIE]

/-- Claim C2, amended.  An evaluator that returns `0` for every genome makes
the generation's fitness sum zero, and the run then fails at the selection
step with Python's `ZeroDivisionError` raised by the probability
comprehension — an unhandled division by zero, not a `DegenerateFitness`
error (the script has no such error; see `evaluator_zero_cex`). -/
theorem evaluator_zero_da_zero_division (rata_mutatie : ℚ) (populatie : List ℚ) (r : Aleator)
    (hne : populatie ≠ []) :
    efectueaza_selectiaE populatie (populatie.map fun _ => 0) r.alegeri =
      Except.error Eroare.zeroDivision ∧
    pas_generatieE rata_mutatie (fun _ => 0) populatie r = Except.error Eroare.zeroDivision := by
  constructor
  · simp [efectueaza_selectiaE, hne]
  · simp [pas_generatieE, hne]

/-- Witness for `evaluator_zero_da_zero_division` at a concrete input. -/
theorem evaluator_zero_da_zero_division_witness :
    efectueaza_selectiaE [5] (([5] : List ℚ).map fun _ => 0) aleatorZero.alegeri =
      Except.error Eroare.zeroDivision ∧
    pas_generatieE RATA_MUTATIE (fun _ => 0) [5] aleatorZero = Except.error Eroare.zeroDivision :=
  evaluator_zero_da_zero_division RATA_MUTATIE [5] aleatorZero (by simp)

/-- Counterexample to claim C2 as stated: with the all-zero evaluator on the
population `[5]` the generation fails with `ZeroDivisionError`, which is not
the `DegenerateFitness` failure the claim promises. -/
theorem evaluator_zero_cex :
    pas_generatieE RATA_MUTATIE (fun _ => 0) [5] aleatorZero = Except.error Eroare.zeroDivision ∧
    Eroare.zeroDivision ≠ Eroare.degenerateFitness := by
  constructor
  · simp [pas_generatieE]
  · decide

/-- Claim C4.  Every genome produced by `efectueaza_crossover` and every
genome produced by `efectueaza_mutatia` lies within
`[RAZA_MIN, RAZA_MAX]`, for all inputs: both operators clamp at the point of
creation. -/
theorem operatorii_respecta_limitele :
    (∀ parinte1 parinte2 alfa : ℚ,
      RAZA_MIN ≤ efectueaza_crossover parinte1 parinte2 alfa ∧
      efectueaza_crossover parinte1 parinte2 alfa ≤ RAZA_MAX) ∧
    (∀ raza zgomot : ℚ,
      RAZA_MIN ≤ efectueaza_mutatia raza zgomot ∧ efectueaza_mutatia raza zgomot ≤ RAZA_MAX) :=
  ⟨fun _ _ _ => limite_clamp _, fun _ _ => limite_clamp _⟩

theorem lungime_pereche (sel : List ℚ) (r : Aleator) (k : Nat) :
    (pereche_urmasi sel r k).length = 2 := by
  unfold pereche_urmasi
  split <;> simp

theorem lungime_flatMap_doi {f : Nat → List ℚ} (hf : ∀ k, (f k).length = 2) (n : Nat) :
    ((List.range n).flatMap f).length = 2 * n := by
  rw [List.length_flatMap]
  have : (List.range n).map (List.length ∘ f) = (List.range n).map fun _ => 2 := by
    apply List.map_congr_left
    intro k _
    simp [hf k]
  rw [this]
  induction n with
  | zero => simp
  | succ m ih =>
    rw [List.range_succ]
    simp [ih]
    ring

theorem flatMap_blocuri_getD {f : Nat → List ℚ} (hf : ∀ k, (f k).length = 2) :
    ∀ (n k j : Nat), k < n → j < 2 →
    ((List.range n).flatMap f).getD (2 * k + j) 0 = (f k).getD j 0 := by
  intro n
  induction n with
  | zero => intro k j hk; omega
  | succ m ih =>
    intro k j hk hj
    rw [List.range_succ, List.flatMap_append]
    rcases Nat.lt_succ_iff_lt_or_eq.mp hk with hlt | rfl
    · rw [List.getD_append _ _ _ _ (by rw [lungime_flatMap_doi hf]; omega)]
      exact ih k j hlt hj
    · rw [List.getD_append_right _ _ _ _ (by rw [lungime_flatMap_doi hf]; omega)]
      rw [lungime_flatMap_doi hf]
      have hj2 : 2 * k + j - 2 * k = j := by omega
      rw [hj2]
      simp

theorem membru_pereche (sel : List ℚ) (r : Aleator) (k : Nat)
    (hlen : sel.length = DIMENSIUNE_POPULATIE)
    (hb : ∀ x ∈ sel, RAZA_MIN ≤ x ∧ x ≤ RAZA_MAX) (hk : k < DIMENSIUNE_POPULATIE / 2) :
    ∀ x ∈ pereche_urmasi sel r k, RAZA_MIN ≤ x ∧ x ≤ RAZA_MAX := by
  intro x hx
  have hD : DIMENSIUNE_POPULATIE = 50 := rfl
  have h1 : 2 * k < sel.length := by rw [hlen, hD]; rw [hD] at hk; omega
  have h2 : (2 * k + 1) % DIMENSIUNE_POPULATIE < sel.length := by
    rw [hlen]
    exact Nat.mod_lt _ (by rw [hD]; omega)
  have hp1 : sel.getD (2 * k) 0 ∈ sel := by
    rw [List.getD_eq_getElem _ _ h1]
    exact List.getElem_mem h1
  have hp2 : sel.getD ((2 * k + 1) % DIMENSIUNE_POPULATIE) 0 ∈ sel := by
    rw [List.getD_eq_getElem _ _ h2]
    exact List.getElem_mem h2
  simp only [pereche_urmasi] at hx
  split at hx
  · simp only [List.mem_cons, List.mem_singleton] at hx
    rcases hx with rfl | rfl | hfalse
    · exact limite_clamp _
    · exact limite_clamp _
    · simp at hfalse
  · simp only [List.mem_cons, List.mem_singleton] at hx
    rcases hx with rfl | rfl | hfalse
    · exact hb _ hp1
    · exact hb _ hp2
    · simp at hfalse

theorem limite_pas_crossover (sel : List ℚ) (r : Aleator)
    (hlen : sel.length = DIMENSIUNE_POPULATIE)
    (hb : ∀ x ∈ sel, RAZA_MIN ≤ x ∧ x ≤ RAZA_MAX) :
    ∀ x ∈ pas_crossover sel r, RAZA_MIN ≤ x ∧ x ≤ RAZA_MAX := by
  intro x hx
  rw [pas_crossover, List.mem_flatMap] at hx
  obtain ⟨k, hkmem, hxk⟩ := hx
  exact membru_pereche sel r k hlen hb (List.mem_range.mp hkmem) x hxk

theorem lungime_pas_mutatie (rm : ℚ) (u : List ℚ) (r : Aleator) :
    (pas_mutatie rm u r).1.length = u.length := by
  simp [pas_mutatie]

theorem limite_pas_mutatie (rm : ℚ) (u : List ℚ) (r : Aleator)
    (hb : ∀ x ∈ u, RAZA_MIN ≤ x ∧ x ≤ RAZA_MAX) :
    ∀ x ∈ (pas_mutatie rm u r).1, RAZA_MIN ≤ x ∧ x ≤ RAZA_MAX := by
  intro x hx
  simp only [pas_mutatie, List.mem_map, List.mem_range] at hx
  obtain ⟨i, hi, hxi⟩ := hx
  have hmem : u.getD i 0 ∈ u := by
    rw [List.getD_eq_getElem _ _ hi]
    exact List.getElem_mem hi
  split at hxi
  · rw [← hxi]
    exact limite_clamp _
  · rw [← hxi]
    exact hb _ hmem

theorem pas_generatie_invariant (rm : ℚ) (fitness : ℚ → ℚ) (pop : List ℚ) (r : Aleator)
    (hlen : pop.length = DIMENSIUNE_POPULATIE)
    (hb : ∀ x ∈ pop, RAZA_MIN ≤ x ∧ x ≤ RAZA_MAX)
    (hfit : ∀ x, RAZA_MIN ≤ x → x ≤ RAZA_MAX → 0 < fitness x)
    (hdraw : ∀ j, r.alegeri j < 1) :
    (pas_generatie rm fitness pop r).1.length = DIMENSIUNE_POPULATIE ∧
    ∀ x ∈ (pas_generatie rm fitness pop r).1, RAZA_MIN ≤ x ∧ x ≤ RAZA_MAX := by
  have hvlen : pop.length = (pop.map fitness).length := by simp
  have hvne : pop.map fitness ≠ [] := by
    intro h
    have := congrArg List.length h
    simp [hlen, DIMENSIUNE_POPULATIE] at this
  have hvpos : ∀ f ∈ pop.map fitness, 0 < f := by
    intro f hf
    rw [List.mem_map] at hf
    obtain ⟨x, hx, rfl⟩ := hf
    exact hfit x (hb x hx).1 (hb x hx).2
  obtain ⟨hslen, hsmem⟩ :=
    selectia_fundamental pop (pop.map fitness) r.alegeri hvlen hvne hvpos hdraw
  have hsb : ∀ x ∈ efectueaza_selectia pop (pop.map fitness) r.alegeri,
      RAZA_MIN ≤ x ∧ x ≤ RAZA_MAX := fun x hx => hb x (hsmem x hx)
  have hclen : (pas_crossover (efectueaza_selectia pop (pop.map fitness) r.alegeri) r).length
      = DIMENSIUNE_POPULATIE := by
    rw [pas_crossover, lungime_flatMap_doi (lungime_pereche _ r)]
    decide
  have hcb := limite_pas_crossover (efectueaza_selectia pop (pop.map fitness) r.alegeri) r
    hslen hsb
  constructor
  · show (pas_mutatie rm (pas_crossover
      (efectueaza_selectia pop (pop.map fitness) r.alegeri) r) r).1.length = _
    rw [lungime_pas_mutatie, hclen]
  · show ∀ x ∈ (pas_mutatie rm (pas_crossover
      (efectueaza_selectia pop (pop.map fitness) r.alegeri) r) r).1, _
    exact limite_pas_mutatie rm _ r hcb

theorem init_invariant (uniforme : Nat → ℚ) (hu : ∀ i, 0 ≤ uniforme i ∧ uniforme i ≤ 1) :
    (initializare_populatie uniforme).length = DIMENSIUNE_POPULATIE ∧
    ∀ x ∈ initializare_populatie uniforme, RAZA_MIN ≤ x ∧ x ≤ RAZA_MAX := by
  constructor
  · simp [initializare_populatie, initializare_populatie_dim]
  · intro x hx
    simp only [initializare_populatie, initializare_populatie_dim, List.mem_map,
      List.mem_range] at hx
    obtain ⟨i, _, rfl⟩ := hx
    have h1 := (hu i).1
    have h2 := (hu i).2
    norm_num [RAZA_MIN, RAZA_MAX]
    constructor <;> nlinarith

theorem populatia_invariant (rata_mutatie : ℚ) (fitness : ℚ → ℚ)
    (uniforme : Nat → ℚ) (randuri : Nat → Aleator)
    (hu : ∀ i, 0 ≤ uniforme i ∧ uniforme i ≤ 1)
    (hfit : ∀ x, RAZA_MIN ≤ x → x ≤ RAZA_MAX → 0 < fitness x)
    (hdraw : ∀ g j, (randuri g).alegeri j < 1) :
    ∀ g, (populatia_dupa rata_mutatie fitness (initializare_populatie uniforme) randuri g).length
        = DIMENSIUNE_POPULATIE ∧
      ∀ x ∈ populatia_dupa rata_mutatie fitness (initializare_populatie uniforme) randuri g,
        RAZA_MIN ≤ x ∧ x ≤ RAZA_MAX := by
  intro g
  induction g with
  | zero => exact init_invariant uniforme hu
  | succ m ih =>
    exact pas_generatie_invariant rata_mutatie fitness _ (randuri m) ih.1 ih.2 hfit (hdraw m)

/-- Claim C3.  Starting from the initialised population, the population at
every generation (and hence every offspring population, which is the
population of the next index) has exactly `DIMENSIUNE_POPULATIE` elements,
for any fitness evaluator positive on the bounded domain and any in-range
randomness. -/
theorem populatia_pastreaza_dimensiunea (rata_mutatie : ℚ) (fitness : ℚ → ℚ)
    (uniforme : Nat → ℚ) (randuri : Nat → Aleator)
    (hu : ∀ i, 0 ≤ uniforme i ∧ uniforme i ≤ 1)
    (hfit : ∀ x, RAZA_MIN ≤ x → x ≤ RAZA_MAX → 0 < fitness x)
    (hdraw : ∀ g j, (randuri g).alegeri j < 1) :
    ∀ g, (populatia_dupa rata_mutatie fitness (initializare_populatie uniforme) randuri g).length
      = DIMENSIUNE_POPULATIE :=
  fun g => (populatia_invariant rata_mutatie fitness uniforme randuri hu hfit hdraw g).1

/-- Witness for `populatia_pastreaza_dimensiunea` at a concrete input. -/
theorem populatia_pastreaza_dimensiunea_witness :
    (populatia_dupa RATA_MUTATIE (fun _ => 1) (initializare_populatie fun _ => 0)
      (fun _ => aleatorZero) 3).length = DIMENSIUNE_POPULATIE :=
  populatia_pastreaza_dimensiunea RATA_MUTATIE (fun _ => 1) (fun _ => 0) (fun _ => aleatorZero)
    (fun i => by norm_num) (fun x _ _ => by norm_num) (fun g j => by norm_num [aleatorZero]) 3

/-- Claim C6.  The crossover phase walks consecutive non-overlapping pairs of
the mating pool; for pair `k` (positions `2k` and `(2k + 1) % 50`), when the
decision draw falls below `RATA_CROSSOVER` the two offspring at positions
`2k` and `2k + 1` are `clamp(alfa * parinte1 + (1 - alfa) * parinte2)` with
independently drawn weights and swapped arguments; otherwise both parents are
copied forward unchanged as that pair's two children. -/
theorem crossover_pe_perechi (indivizi_selectati : List ℚ) (r : Aleator) (k : Nat)
    (hk : k < DIMENSIUNE_POPULATIE / 2) :
    (pas_crossover indivizi_selectati r).length = DIMENSIUNE_POPULATIE ∧
    (r.decizie_crossover k < RATA_CROSSOVER →
      (pas_crossover indivizi_selectati r).getD (2 * k) 0 =
        max RAZA_MIN (min RAZA_MAX
          (r.alfa1 k * indivizi_selectati.getD (2 * k) 0 +
           (1 - r.alfa1 k) * indivizi_selectati.getD ((2 * k + 1) % DIMENSIUNE_POPULATIE) 0)) ∧
      (pas_crossover indivizi_selectati r).getD (2 * k + 1) 0 =
        max RAZA_MIN (min RAZA_MAX
          (r.alfa2 k * indivizi_selectati.getD ((2 * k + 1) % DIMENSIUNE_POPULATIE) 0 +
           (1 - r.alfa2 k) * indivizi_selectati.getD (2 * k) 0))) ∧
    (¬ r.decizie_crossover k < RATA_CROSSOVER →
      (pas_crossover indivizi_selectati r).getD (2 * k) 0 = indivizi_selectati.getD (2 * k) 0 ∧
      (pas_crossover indivizi_selectati r).getD (2 * k + 1) 0 =
        indivizi_selectati.getD ((2 * k + 1) % DIMENSIUNE_POPULATIE) 0) := by
  have hf : ∀ j, (pereche_urmasi indivizi_selectati r j).length = 2 :=
    lungime_pereche indivizi_selectati r
  have h0 : (pas_crossover indivizi_selectati r).getD (2 * k) 0 =
      (pereche_urmasi indivizi_selectati r k).getD 0 0 := by
    have := flatMap_blocuri_getD hf (DIMENSIUNE_POPULATIE / 2) k 0 hk (by omega)
    simpa [pas_crossover] using this
  have h1 : (pas_crossover indivizi_selectati r).getD (2 * k + 1) 0 =
      (pereche_urmasi indivizi_selectati r k).getD 1 0 := by
    have := flatMap_blocuri_getD hf (DIMENSIUNE_POPULATIE / 2) k 1 hk (by omega)
    simpa [pas_crossover] using this
  refine ⟨?_, ?_, ?_⟩
  · rw [pas_crossover, lungime_flatMap_doi hf]
    decide
  · intro hdec
    rw [h0, h1]
    simp only [pereche_urmasi, if_pos hdec]
    simp [efectueaza_crossover]
  · intro hdec
    rw [h0, h1]
    simp only [pereche_urmasi, if_neg hdec]
    simp

/-- Witness for `crossover_pe_perechi` at a concrete input. -/
theorem crossover_pe_perechi_witness :
    (pas_crossover [1, 2] aleatorZero).length = DIMENSIUNE_POPULATIE ∧
    (aleatorZero.decizie_crossover 0 < RATA_CROSSOVER →
      (pas_crossover [1, 2] aleatorZero).getD (2 * 0) 0 =
        max RAZA_MIN (min RAZA_MAX
          (aleatorZero.alfa1 0 * ([1, 2] : List ℚ).getD (2 * 0) 0 +
           (1 - aleatorZero.alfa1 0) *
             ([1, 2] : List ℚ).getD ((2 * 0 + 1) % DIMENSIUNE_POPULATIE) 0)) ∧
      (pas_crossover [1, 2] aleatorZero).getD (2 * 0 + 1) 0 =
        max RAZA_MIN (min RAZA_MAX
          (aleatorZero.alfa2 0 * ([1, 2] : List ℚ).getD ((2 * 0 + 1) % DIMENSIUNE_POPULATIE) 0 +
           (1 - aleatorZero.alfa2 0) * ([1, 2] : List ℚ).getD (2 * 0) 0))) ∧
    (¬ aleatorZero.decizie_crossover 0 < RATA_CROSSOVER →
      (pas_crossover [1, 2] aleatorZero).getD (2 * 0) 0 = ([1, 2] : List ℚ).getD (2 * 0) 0 ∧
      (pas_crossover [1, 2] aleatorZero).getD (2 * 0 + 1) 0 =
        ([1, 2] : List ℚ).getD ((2 * 0 + 1) % DIMENSIUNE_POPULATIE) 0) :=
  crossover_pe_perechi [1, 2] aleatorZero 0 (by decide)

/-- Claim C5, amended.  The script performs no configuration validation and
has no `InvalidConfiguration` error: its configuration is a set of fixed
constants (and `DIMENSIUNE_POPULATIE = 50` is positive).  Were the population
size `0`, initialisation would succeed with the empty population and the run
would only fail inside generation `0`, with Python's `ValueError` from
`max()` on the empty fitness list — not eagerly and not with
`InvalidConfiguration` (see `configuratie_zero_cex`). -/
theorem lipsa_validarii_configuratiei :
    (∀ uniforme : Nat → ℚ, initializare_populatie_dim 0 uniforme = []) ∧
    (∀ (rata_mutatie : ℚ) (fitness : ℚ → ℚ) (uniforme : Nat → ℚ) (r : Aleator),
      pas_generatieE rata_mutatie fitness (initializare_populatie_dim 0 uniforme) r =
        Except.error Eroare.valueErrorMaxEmpty) ∧
    0 < DIMENSIUNE_POPULATIE := by
  refine ⟨fun u => rfl, fun rm f u r => ?_, by decide⟩
  simp [pas_generatieE, initializare_populatie_dim]

/-- Counterexample to claim C5 as stated: with population size `0` the run
does not fail with `InvalidConfiguration` before any generation runs; it
reaches generation `0` and fails there with the `ValueError` of `max()` on an
empty sequence. -/
theorem configuratie_zero_cex :
    pas_generatieE RATA_MUTATIE (fun _ => 1) (initializare_populatie_dim 0 fun _ => 0)
        aleatorZero = Except.error Eroare.valueErrorMaxEmpty ∧
    Eroare.valueErrorMaxEmpty ≠ Eroare.invalidConfiguration := by
  constructor
  · simp [pas_generatieE, initializare_populatie_dim]
  · decide

theorem filterMap_rezumat_generatie (F : Nat → Rezumat) (hF : ∀ g, (F g).generatie = g)
    (cond : Nat → Prop) [DecidablePred cond] (l : List Nat) :
    ((l.filterMap fun g => if cond g then some (F g) else none).map Rezumat.generatie) =
      l.filter fun g => decide (cond g) := by
  induction l with
  | nil => rfl
  | cons a t ih =>
    rw [List.filterMap_cons, List.filter_cons]
    by_cases hc : cond a
    · simp [hc, ih, hF]
    · simp [hc, ih]

/-- Claim C7, amended.  The per-generation summary is printed only under
`generatie % 10 == 0 or generatie == NUMAR_GENERATII - 1`: the emitted
summaries carry exactly the generation indices `0, 10, …, 90, 99` of
`List.range NUMAR_GENERATII`, each exactly once and in increasing order —
not one summary for every generation. -/
theorem afisarea_la_fiecare_zece (rata_mutatie : ℚ) (fitness : ℚ → ℚ) (populatie0 : List ℚ)
    (randuri : Nat → Aleator) :
    (rezumate_afisate rata_mutatie fitness populatie0 randuri).map Rezumat.generatie =
      (List.range NUMAR_GENERATII).filter
        fun g => decide (g % 10 = 0 ∨ g = NUMAR_GENERATII - 1) :=
  filterMap_rezumat_generatie (rezumatul rata_mutatie fitness populatie0 randuri)
    (fun _ => rfl) (fun g => g % 10 = 0 ∨ g = NUMAR_GENERATII - 1) (List.range NUMAR_GENERATII)

/-- Counterexample to claim C7 as stated: generation `1` completes a
transition (`1 ∈ List.range NUMAR_GENERATII`) but no summary with generation
index `1` is ever emitted. -/
theorem afisare_generatia_unu_cex :
    1 ∉ ((rezumate_afisate RATA_MUTATIE (fun _ => 1) [] fun _ => aleatorZero).map
        Rezumat.generatie) ∧
    1 ∈ List.range NUMAR_GENERATII := by
  constructor
  · have h : (rezumate_afisate RATA_MUTATIE (fun _ => 1) [] fun _ => aleatorZero).map
        Rezumat.generatie =
        (List.range NUMAR_GENERATII).filter
          fun g => decide (g % 10 = 0 ∨ g = NUMAR_GENERATII - 1) :=
      filterMap_rezumat_generatie (rezumatul RATA_MUTATIE (fun _ => 1) [] fun _ => aleatorZero)
        (fun _ => rfl) (fun g => g % 10 = 0 ∨ g = NUMAR_GENERATII - 1)
        (List.range NUMAR_GENERATII)
    rw [h]
    decide
  · decide

theorem getD_sub_indexOf_ne (a : ℚ) : ∀ (l : List ℚ) (j : Nat), j < List.indexOf a l →
    l.getD j 0 ≠ a := by
  intro l
  induction l with
  | nil => intro j hj; simp [List.indexOf] at hj
  | cons b t ih =>
    intro j hj
    rw [List.indexOf_cons] at hj
    by_cases hb : b = a
    · simp [hb] at hj
    · have hbeq : (b == a) = false := by simp [hb]
      rw [hbeq] at hj
      simp at hj
      cases j with
      | zero => simpa using hb
      | succ m =>
        simp only [List.getD_cons_succ]
        exact ih m (by omega)

/-- Claim C8.  On the final population and its freshly computed fitness
vector, the extraction `populatie[valori.index(max(valori))]` returns a
genome of maximal fitness, and every genome at a smaller index has strictly
smaller fitness: the stable arg-max. -/
theorem alege_optimul_stabil (fitness : ℚ → ℚ) (populatie : List ℚ)
    (hne : populatie ≠ []) :
    ∃ i, ∃ h : i < populatie.length,
      alege_optimul populatie (populatie.map fitness) = populatie.get ⟨i, h⟩ ∧
      (∀ x ∈ populatie, fitness x ≤ fitness (populatie.get ⟨i, h⟩)) ∧
      ∀ j, j < i → fitness (populatie.getD j 0) < fitness (populatie.get ⟨i, h⟩) := by
  set valori := populatie.map fitness with hvalori
  have hvne : valori ≠ [] := by
    simpa [hvalori] using hne
  obtain ⟨M, hM⟩ : ∃ M, valori.max? = some M := by
    cases hv : valori with
    | nil => exact absurd hv hvne
    | cons a t => exact ⟨t.foldl max a, rfl⟩
  have hMmem : M ∈ valori := List.max?_mem max_choice hM
  have hMle : ∀ b ∈ valori, b ≤ M :=
    (List.max?_le_iff (fun a b c => max_le_iff) hM).mp (le_refl M)
  have hmaxim : maxim valori = M := by rw [maxim, hM, Option.getD_some]
  have hilt : List.indexOf M valori < valori.length := List.indexOf_lt_length.mpr hMmem
  have hlen : valori.length = populatie.length := by simp [hvalori]
  have hipop : List.indexOf M valori < populatie.length := hlen ▸ hilt
  have hval : valori.get ⟨List.indexOf M valori, hilt⟩ = M := List.indexOf_get hilt
  have hgen : ∀ (n : Nat) (h1 : n < valori.length) (h2 : n < populatie.length),
      fitness (populatie.get ⟨n, h2⟩) = valori.get ⟨n, h1⟩ := by
    intro n h1 h2
    simp [hvalori]
  have hfit : fitness (populatie.get ⟨List.indexOf M valori, hipop⟩) = M :=
    (hgen _ hilt hipop).trans hval
  refine ⟨List.indexOf M valori, hipop, ?_, ?_, ?_⟩
  · rw [alege_optimul, hmaxim, List.getD_eq_getElem populatie 0 hipop]
    rfl
  · intro x hx
    rw [hfit]
    apply hMle
    rw [hvalori, List.mem_map]
    exact ⟨x, hx, rfl⟩
  · intro j hj
    have hjlt : j < populatie.length := lt_trans hj hipop
    have hjv : j < valori.length := hlen ▸ hjlt
    have hne2 : valori.getD j 0 ≠ M := getD_sub_indexOf_ne M valori j hj
    have hle : valori.getD j 0 ≤ M := by
      apply hMle
      rw [List.getD_eq_getElem valori 0 hjv]
      exact List.getElem_mem hjv
    have hjfit : fitness (populatie.getD j 0) = valori.getD j 0 := by
      rw [List.getD_eq_getElem populatie 0 hjlt, List.getD_eq_getElem valori 0 hjv]
      exact hgen j hjv hjlt
    rw [hfit, hjfit]
    exact lt_of_le_of_ne hle hne2

/-- Witness for `alege_optimul_stabil` at a concrete input. -/
theorem alege_optimul_stabil_witness :
    ∃ i, ∃ h : i < ([2, 1] : List ℚ).length,
      alege_optimul [2, 1] (([2, 1] : List ℚ).map fun x => x) = ([2, 1] : List ℚ).get ⟨i, h⟩ ∧
      (∀ x ∈ ([2, 1] : List ℚ), (fun x => x) x ≤ (fun x => x) (([2, 1] : List ℚ).get ⟨i, h⟩)) ∧
      ∀ j, j < i → (fun x => x) (([2, 1] : List ℚ).getD j 0) <
        (fun x => x) (([2, 1] : List ℚ).get ⟨i, h⟩) :=
  alege_optimul_stabil (fun x => x) [2, 1] (by simp)

theorem map_getD_range (u : List ℚ) : (List.range u.length).map (fun i => u.getD i 0) = u := by
  apply List.ext_getElem
  · simp
  · intro n h1 h2
    simp only [List.getElem_map, List.getElem_range]
    exact List.getD_eq_getElem u 0 h2

theorem pas_mutatie_zero (u : List ℚ) (r : Aleator)
    (hdec : ∀ i, 0 ≤ r.decizie_mutatie i) :
    pas_mutatie 0 u r = (u, 0) := by
  rw [pas_mutatie]
  simp only [Prod.mk.injEq]
  constructor
  · have hif : ∀ i, (if r.decizie_mutatie i < 0 then
        efectueaza_mutatia (u.getD i 0) (r.zgomot i) else u.getD i 0) = u.getD i 0 := by
      intro i
      rw [if_neg (not_lt.mpr (hdec i))]
    simp only [hif]
    exact map_getD_range u
  · rw [List.countP_eq_zero]
    intro i _
    simp [not_lt.mpr (hdec i)]

/-- Claim C9.  With mutation rate `0` (and the decision draws of
`random.random()` nonnegative, as they always are), every generation's
crossover offspring pass through the mutation step exactly unchanged and the
reported `numar_mutatii` of every generation's summary is `0`. -/
theorem mutatia_rata_zero (fitness : ℚ → ℚ) (populatie0 : List ℚ) (randuri : Nat → Aleator)
    (g : Nat) (hdec : ∀ g' i, 0 ≤ (randuri g').decizie_mutatie i) :
    (pas_generatie 0 fitness (populatia_dupa 0 fitness populatie0 randuri g) (randuri g)).1 =
      pas_crossover (efectueaza_selectia (populatia_dupa 0 fitness populatie0 randuri g)
        ((populatia_dupa 0 fitness populatie0 randuri g).map fitness) (randuri g).alegeri)
        (randuri g) ∧
    (rezumatul 0 fitness populatie0 randuri g).numar_mutatii = 0 := by
  have hstep : pas_generatie 0 fitness (populatia_dupa 0 fitness populatie0 randuri g)
      (randuri g) =
      (pas_crossover (efectueaza_selectia (populatia_dupa 0 fitness populatie0 randuri g)
        ((populatia_dupa 0 fitness populatie0 randuri g).map fitness) (randuri g).alegeri)
        (randuri g), 0) := by
    rw [pas_generatie]
    exact pas_mutatie_zero _ (randuri g) (hdec g)
  constructor
  · rw [hstep]
  · show (pas_generatie 0 fitness (populatia_dupa 0 fitness populatie0 randuri g)
      (randuri g)).2 = 0
    rw [hstep]

/-- Witness for `mutatia_rata_zero` at a concrete input. -/
theorem mutatia_rata_zero_witness :
    (pas_generatie 0 (fun _ => 1) (populatia_dupa 0 (fun _ => 1) [] (fun _ => aleatorZero) 0)
        (aleatorZero)).1 =
      pas_crossover (efectueaza_selectia (populatia_dupa 0 (fun _ => 1) [] (fun _ => aleatorZero) 0)
        ((populatia_dupa 0 (fun _ => 1) [] (fun _ => aleatorZero) 0).map fun _ => 1)
        aleatorZero.alegeri) aleatorZero ∧
    (rezumatul 0 (fun _ => 1) [] (fun _ => aleatorZero) 0).numar_mutatii = 0 :=
  mutatia_rata_zero (fun _ => 1) [] (fun _ => aleatorZero) 0 fun g i => by norm_num [aleatorZero]

/-- Claim C10.  The built-in evaluator returns a strictly positive value for
every radius in `[RAZA_MIN, RAZA_MAX]` (the real-number model has no NaN or
infinity, so the value is trivially finite), and consequently the fitness sum
of every nonempty in-bounds population is strictly positive: the evaluator
satisfies the external-evaluator contract. -/
theorem evaluatorul_este_pozitiv :
    (∀ raza : ℝ, (RAZA_MIN : ℝ) ≤ raza → raza ≤ (RAZA_MAX : ℝ) → 0 < evalueaza_fitness raza) ∧
    ∀ populatie : List ℝ, populatie ≠ [] →
      (∀ x ∈ populatie, (RAZA_MIN : ℝ) ≤ x ∧ x ≤ (RAZA_MAX : ℝ)) →
      0 < (populatie.map evalueaza_fitness).sum := by
  have hmin : (0 : ℝ) < (RAZA_MIN : ℝ) := by norm_num [RAZA_MIN]
  have hpos : ∀ raza : ℝ, 0 < raza → 0 < evalueaza_fitness raza := by
    intro raza hr
    have haria : 0 < calculeaza_aria raza := by
      unfold calculeaza_aria calculeaza_inaltimea VOLUM_FIX
      positivity
    unfold evalueaza_fitness
    positivity
  have hdom : ∀ raza : ℝ, (RAZA_MIN : ℝ) ≤ raza → raza ≤ (RAZA_MAX : ℝ) →
      0 < evalueaza_fitness raza :=
    fun raza h1 _ => hpos raza (lt_of_lt_of_le hmin h1)
  refine ⟨hdom, fun populatie hne hb => ?_⟩
  apply List.sum_pos
  · intro x hx
    rw [List.mem_map] at hx
    obtain ⟨y, hy, rfl⟩ := hx
    exact hdom y (hb y hy).1 (hb y hy).2
  · simpa using hne
